import Mathlib

/-!
Verification development for the tjsdoc-runtime-common document store
(`DocDB`, `src/unnamed/part_008`), the AST node container
(`ASTNodeContainer`, `src/unnamed/part_002`), the generation pipeline
(`GenerateDocData` / `s_TRAVERSE_FILE`, `src/unnamed/part_005`) and the
regeneration engine (`RegenerateDocData._regenerateDocData`,
`src/src/utils/TraverseUtil.js`).

The JavaScript code is shallowly embedded: each JS method becomes a pure
Lean function over an explicit store state.  TaffyDB, the external
in-memory database, is embedded by its documented record semantics: a
store holds a list of records in insertion order, a query is a
conjunction of per-field conditions (exact value, value-in-array, or the
one regex shape `[~]name$` used by `findByName`), `order('name asec')`
is a stable ascending sort on `name` (TaffyDB treats the misspelled
direction token as the default ascending), `distinct('filePath')`
collects field values keeping first occurrences, and `insert` appends.

JavaScript reference identity (`===`) is embedded by giving every store
two numeric reference tokens: `selfRef` for the `DocDB` object itself
and `taffyRef` for the internal TaffyDB handle stored in `this._docDB`.
Two distinct JS objects never compare `===`, so a `DocDB` and a TaffyDB
handle have distinct tokens.
-/

/-- One documentation record (`DocObject`).  Field names follow the
source; the JS fields `_custom_extends_chains` and
`_custom_dependent_file_paths` drop the leading underscore, `__docId__`
becomes `docId`.  `ast` and `node` record presence of the corresponding
JS fields; `content` uses `""` for the absent/empty (falsy) case. -/
structure Doc where
  docId : Nat := 0
  kind : String := ""
  name : String := ""
  longname : String := ""
  memberof : String := ""
  qualifier : Option String := none
  filePath : String := ""
  access : Option String := none
  interface : Bool := false
  builtinVirtual : Bool := false
  undocument : Bool := false
  lineNumber : Nat := 0
  content : String := ""
  ast : Bool := false
  node : Bool := false
  custom_extends_chains : Option (List String) := none
  custom_dependent_file_paths : Option (List String) := none
deriving DecidableEq

/-- A per-field condition of a TaffyDB query object: an exact string,
a string-in-array membership test, or the single regex shape
`new RegExp('[~]' + name.replace('*', '\\*') + '$')` built in
`findByName` stage 3, which (for the identifier-shaped names the store
holds) matches exactly the longnames ending in `"~" + name`. -/
inductive StrMatch where
  | exact (s : String)
  | oneOf (ss : List String)
  | tildeSuffix (s : String)
deriving DecidableEq

/-- Whether `suf` is a suffix of `v`, on the underlying character
lists (mirrors the JS regex anchor `$`). -/
def strEndsWith (v suf : String) : Bool :=
  suf.data.isSuffixOf v.data

/-- Evaluate a string condition on a field value. -/
def StrMatch.test : StrMatch → String → Bool
  | .exact s, v => v == s
  | .oneOf ss, v => ss.contains v
  | .tildeSuffix s, v => strEndsWith v ("~" ++ s)

/-- A TaffyDB query object restricted to the fields the source queries
on.  `none` means the key is absent from the query object. -/
structure Query where
  longname : Option StrMatch := none
  name : Option String := none
  kind : Option StrMatch := none
  qualifier : Option String := none
  memberof : Option String := none
  filePath : Option StrMatch := none
  access : Option String := none
  interface : Option Bool := none

/-- Whether a record matches one query object (conjunction over the
present keys, TaffyDB template semantics). -/
def Query.matches (q : Query) (d : Doc) : Bool :=
  (match q.longname with | none => true | some m => m.test d.longname) &&
  (match q.name with | none => true | some s => d.name == s) &&
  (match q.kind with | none => true | some m => m.test d.kind) &&
  (match q.qualifier with | none => true | some s => d.qualifier == some s) &&
  (match q.memberof with | none => true | some s => d.memberof == s) &&
  (match q.filePath with | none => true | some m => m.test d.filePath) &&
  (match q.access with | none => true | some s => d.access == some s) &&
  (match q.interface with | none => true | some b => d.interface == b)

/-- Lexicographic `≤` on character lists, the order JS string
comparison induces on the identifier strings the store holds. -/
def lexLe : List Char → List Char → Bool
  | [], _ => true
  | _ :: _, [] => false
  | a :: as, b :: bs => if a = b then lexLe as bs else decide (a < b)

/-- The ascending-by-`name` comparison used by the TaffyDB sort. -/
def nameLe (a b : Doc) : Bool :=
  lexLe a.name.data b.name.data

/-- Stable insertion step for the ascending-by-`name` sort. -/
def insertByName (d : Doc) : List Doc → List Doc
  | [] => [d]
  | e :: es => if nameLe d e then d :: e :: es else e :: insertByName d es

/-- TaffyDB `order('name asec')`: stable ascending sort on `name`
(the unrecognized direction token `asec` falls back to ascending). -/
def sortByName : List Doc → List Doc
  | [] => []
  | d :: ds => insertByName d (sortByName ds)

/-- Push each value not already collected, keeping first-occurrence
order (the shared shape of TaffyDB `distinct` and the JS `Set`
accumulation in `findDependentFiles`). -/
def dedupPush (acc : List String) (fps : List String) : List String :=
  fps.foldl (fun a f => if a.contains f then a else a ++ [f]) acc

/-- TaffyDB `distinct('filePath')`: field values in first-occurrence
order without duplicates. -/
def distinctVals (l : List String) : List String :=
  dedupPush [] l

/-- The `outputASTData` part of the target project `TJSDocConfig`
consulted by `DocDB.filterDoc`. -/
structure Config where
  outputASTData : Bool := false
deriving DecidableEq

/-- The `DocDB` store state: the TaffyDB record list (`_docDB`), the id
counter (`_docID`), the mode (`_mode`), the optional config
(`_config`), and the two JS object-identity tokens described in the
header comment. -/
structure DocDB where
  selfRef : Nat := 0
  taffyRef : Nat := 1
  docs : List Doc := []
  docID : Nat := 0
  mode : String := "generate"
  config : Option Config := none
deriving DecidableEq

/-- `new DocDB({docData, mode})`: wraps the given records and sets
`this._docID = 0` unconditionally — the source carries
`// TODO determine highest __docId__ from any given docData`. -/
def DocDB.construct (docData : List Doc) (mode : String)
    (selfRef : Nat) (taffyRef : Nat) : DocDB :=
  { selfRef := selfRef, taffyRef := taffyRef, docs := docData,
    docID := 0, mode := mode }

/-- `DocDB.filterDoc`: blanks truthy `content`, deletes `ast`, and —
when a config is present and `outputASTData` is false — deletes
`node`. -/
def DocDB.filterDoc (self : DocDB) (doc : Doc) : Doc :=
  let doc := if doc.content ≠ "" then { doc with content := "" } else doc
  let doc := if doc.ast then { doc with ast := false } else doc
  match self.config with
  | some c => if ¬ c.outputASTData then { doc with node := false } else doc
  | none => doc

/-- `DocDB.findSorted(void 0, ...query)` = `DocDB.find(...query)`:
records matching every query object, sorted ascending by `name`.
Every call the claims exercise passes no `order` argument, so the
`order` prefix branch of `findSorted` is not modelled. -/
def DocDB.find (self : DocDB) (query : List Query) : List Doc :=
  sortByName (self.docs.filter (fun d => query.all (fun q => q.matches d)))

/-- `DocDB.getCurrentIDAndIncrement`: returns `this._docID++`. -/
def DocDB.getCurrentIDAndIncrement (self : DocDB) : Nat × DocDB :=
  (self.docID, { self with docID := self.docID + 1 })

/-- Errors the store raises to its immediate caller. -/
inductive DBError where
  | sameInstance
  | notAnObject
deriving DecidableEq

/-- `DocDB.insert(objectOrDB)` for a `DocDB` argument: raises when the
argument is `===` to `this._docDB` (the internal TaffyDB handle, not
the `DocDB` instance), otherwise appends the source store's sorted
records passed through `filterDoc`. -/
def DocDB.insertDB (self other : DocDB) : Except DBError DocDB :=
  if other.selfRef == self.taffyRef then .error .sameInstance
  else .ok { self with
             docs := self.docs ++ (sortByName other.docs).map self.filterDoc }

/-- `DocDB.insert(objectOrDB)` for a single record argument. -/
def DocDB.insertDoc (self : DocDB) (doc : Doc) : DocDB :=
  { self with docs := self.docs ++ [self.filterDoc doc] }

/-- TaffyDB `merge(rows, key)` with the default identity column `id`:
each incoming row updates every existing record agreeing with it on the
identity column, and is appended when none does. -/
def taffyMergeRow (rows : List Doc) (v : Doc) : List Doc :=
  if rows.any (fun r => r.docId == v.docId) then
    rows.map (fun r => if r.docId == v.docId then v else r)
  else rows ++ [v]

/-- `DocDB.merge(objectOrDB, key)` for a `DocDB` argument: the same
(mis-)guard as `insert`, then a TaffyDB merge of the source store's
sorted, filtered records. -/
def DocDB.mergeDB (self other : DocDB) : Except DBError DocDB :=
  if other.selfRef == self.taffyRef then .error .sameInstance
  else .ok { self with
             docs := ((sortByName other.docs).map self.filterDoc).foldl
                       taffyMergeRow self.docs }

/-- `DocDB.remove({ filePath })` as invoked from `removeAndInsertDB`
(the `query[0] instanceof DocDB` branch of `remove` is unreachable:
its guard reads `query.length.length > 0`, which is `undefined > 0`):
removes every record whose `filePath` is in the given array. -/
def DocDB.removeByFilePaths (self : DocDB) (filePath : List String) : DocDB :=
  { self with docs := self.docs.filter (fun d => !(filePath.contains d.filePath)) }

/-- `DocDB.removeAndInsertDB(docDB)`: collect the distinct file paths of
the store to insert, remove every record at those paths, then
`this.insert(docDB)`; returns the distinct path list alongside. -/
def DocDB.removeAndInsertDB (self other : DocDB) :
    Except DBError (DocDB × List String) :=
  let filePath := distinctVals (other.docs.map (·.filePath))
  let self := self.removeByFilePaths filePath
  (self.insertDB other).map (fun s => (s, filePath))

/-- The character class `[.#]` of the `findByName` parent/child regex. -/
def isSep (c : Char) : Bool :=
  c = '.' || c = '#'

/-- `name.match(/(.*)[.#](.*)$/)` on the underlying characters: splits
at the last `.` or `#` (the leading `(.*)` is greedy), returning the
parent and child parts, or `none` when no separator occurs. -/
def splitLastSep : List Char → Option (List Char × List Char)
  | [] => none
  | c :: rest =>
    match splitLastSep rest with
    | some (p, ch) => some (c :: p, ch)
    | none => if isSep c then some ([], rest) else none

/-- The parent part of a successful split is strictly shorter than the
input, which bounds the recursion of `findByName`. -/
theorem splitLastSep_parent_lt :
    ∀ {cs : List Char} {p ch : List Char},
      splitLastSep cs = some (p, ch) → p.length < cs.length := by
  intro cs
  induction cs with
  | nil => intro p ch h; simp [splitLastSep] at h
  | cons c rest ih =>
    intro p ch h
    rw [splitLastSep] at h
    cases hr : splitLastSep rest with
    | some pc =>
      rw [hr] at h
      simp only [Option.some.injEq, Prod.mk.injEq] at h
      obtain ⟨hp, _⟩ := h
      subst hp
      simpa using ih hr
    | none =>
      rw [hr] at h
      by_cases hc : isSep c = true
      · simp only [hc, if_true, Option.some.injEq, Prod.mk.injEq] at h
        obtain ⟨hp, _⟩ := h
        subst hp
        simp
      · simp [hc] at h

/-- The `for (const superLongname of parentDoc._custom_extends_chains)`
loop of `findByName` stage 4.  `docs` is the variable of the enclosing
method body; at this point it still holds the (empty) stage-3 result,
and the loop body is `if (docs.length) { return this.find({ memberof:
superLongname, name: childName }); }` — the guard reads that stale
variable rather than a lookup on the chain entry. -/
def chainLoop (self : DocDB) (docs : List Doc) (childName : String) :
    List String → List Doc
  | [] => []
  | superLongname :: rest =>
    if docs.length ≠ 0 then
      self.find [{ memberof := some superLongname, name := some childName }]
    else chainLoop self docs childName rest

/-- `DocDB.findByName(name, kind, qualifier)`: the four-stage fuzzy
lookup — (1) exact `longname`, (2) exact `name`, (3) regex
`[~]name$` on `longname`, (4) the parent/child split with the
extends-chain loop, recursing to resolve the parent as a
`ModuleClass`. -/
def DocDB.findByName (self : DocDB) (name : String)
    (kind : Option String) (qualifier : Option String) : List Doc :=
  let query1 : Query :=
    { longname := some (.exact name), kind := kind.map StrMatch.exact,
      qualifier := qualifier }
  let docs := self.find [query1]
  if docs.length ≠ 0 then docs else
    let query2 : Query := { query1 with longname := none, name := some name }
    let docs := self.find [query2]
    if docs.length ≠ 0 then docs else
      let query3 : Query :=
        { query2 with name := none, longname := some (.tildeSuffix name) }
      let docs := self.find [query3]
      if docs.length ≠ 0 then docs else
        match hm : splitLastSep name.data with
        | none => []
        | some (p, ch) =>
          match (self.findByName (String.mk p) (some "ModuleClass") none).head? with
          | some parentDoc =>
            match parentDoc.custom_extends_chains with
            | some chains => chainLoop self docs (String.mk ch) chains
            | none => []
          | none => []
termination_by name.data.length
decreasing_by
  exact splitLastSep_parent_lt hm

/-- One record's contribution to the dependent-file `Set`: its
`_custom_dependent_file_paths`, when present. -/
def depStep (dep : List String) (doc : Doc) : List String :=
  match doc.custom_dependent_file_paths with
  | some fps => dedupPush dep fps
  | none => dep

/-- `DocDB.findDependentFiles(filePath, output)` for a single path
argument (the shape the regeneration engine passes): collects the
`_custom_dependent_file_paths` of every `ModuleFile` record at the
path into a `Set` and appends them to `output`.  The source iterates
the same field in two identical loops (labelled forward and backward
dependencies); the second pass adds nothing to the `Set`, so one pass
is modelled. -/
def DocDB.findDependentFiles (self : DocDB) (filePath : String)
    (output : List String) : List String :=
  let docs := self.find
    [{ kind := some (.exact "ModuleFile"), filePath := some (.exact filePath) }]
  let dependent := docs.foldl depStep []
  output ++ dependent

/-- The doc object kinds contributing to source coverage
(`s_SOURCE_COVERAGE_KIND`). -/
def s_SOURCE_COVERAGE_KIND : List String :=
  ["ClassMember", "ClassMethod", "ClassProperty", "ModuleAssignment",
   "ModuleClass", "ModuleFunction", "ModuleVariable"]

/-- The `percent` computed by `s_CALC_COVERAGE`:
`expectedCount === 0 ? 0 : Math.floor(10000 * actualCount / expectedCount) / 100`,
in exact rational arithmetic (`Nat` division is the floor). -/
def s_CALC_COVERAGE_percent (actualCount expectedCount : Nat) : ℚ :=
  if expectedCount = 0 then 0
  else ((10000 * actualCount / expectedCount : Nat) : ℚ) / 100

/-- The per-file entry of `getSourceCoverage` coverage data. -/
structure FileCoverage where
  expectedCount : Nat := 0
  actualCount : Nat := 0
  undocumentedLines : List Nat := []
  percent : ℚ := 0
deriving DecidableEq

/-- The result of `getSourceCoverage` (the colour and text fields of
`s_CALC_COVERAGE` are presentation-only and not modelled). -/
structure Coverage where
  expectedCount : Nat
  actualCount : Nat
  percent : ℚ
  files : List (String × FileCoverage)
deriving DecidableEq

/-- `files[filePath] = entry` on the per-file JS object: replace in
place when the key exists, else append (JS string-key insertion
order). -/
def assocSet (files : List (String × FileCoverage)) (fp : String)
    (e : FileCoverage) : List (String × FileCoverage) :=
  if (files.lookup fp).isSome then
    files.map (fun kv => if kv.1 == fp then (fp, e) else kv)
  else files ++ [(fp, e)]

/-- The body of the `includeFiles` loop of `getSourceCoverage`: create
the file entry on demand, bump `expectedCount`, and record either the
undocumented line or the documented hit. -/
def s_FILE_STEP (files : List (String × FileCoverage)) (doc : Doc) :
    List (String × FileCoverage) :=
  let entry := match files.lookup doc.filePath with
    | some e => e
    | none => {}
  let entry := { entry with expectedCount := entry.expectedCount + 1 }
  let entry :=
    if doc.undocument then
      { entry with undocumentedLines := entry.undocumentedLines ++ [doc.lineNumber] }
    else { entry with actualCount := entry.actualCount + 1 }
  assocSet files doc.filePath entry

/-- `DocDB.getSourceCoverage({filePath, includeFiles})`: restrict to
the coverable kinds (optionally also by file path), count documented
records, and apply `s_CALC_COVERAGE` overall and — when `includeFiles`
— per file. -/
def DocDB.getSourceCoverage (self : DocDB) (filePath : Option StrMatch)
    (includeFiles : Bool) : Coverage :=
  let docs := match filePath with
    | some fp => self.find
        [{ kind := some (.oneOf s_SOURCE_COVERAGE_KIND), filePath := some fp }]
    | none => self.find [{ kind := some (.oneOf s_SOURCE_COVERAGE_KIND) }]
  let expectedCount := docs.length
  let actualCount := docs.countP (fun d => !d.undocument)
  if includeFiles then
    let files0 := docs.foldl s_FILE_STEP []
    let files := files0.map (fun kv =>
      (kv.1, { kv.2 with
               percent := s_CALC_COVERAGE_percent kv.2.actualCount kv.2.expectedCount }))
    { expectedCount := expectedCount, actualCount := actualCount,
      percent := s_CALC_COVERAGE_percent actualCount expectedCount,
      files := files }
  else
    { expectedCount := expectedCount, actualCount := actualCount,
      percent := s_CALC_COVERAGE_percent actualCount expectedCount,
      files := [] }

/-- A pending `StaticDoc` as `insertStaticDoc` consumes it: its
`value` getter yields the doc object; `reset()` only releases internal
buffers and has no store effect, so it is not carried. -/
structure StaticDoc where
  value : Doc

/-- `DocDB.insertStaticDoc(staticDoc, docFilter, reset)`: reads the doc
object, evaluates `const addDoc = docFilter(docObject) || true` and
returns without inserting when `!addDoc`, then (for a store with no
eventbus attached, as modelled) resets the static doc and inserts the
filtered doc object.  `none` is the JS `return` (undefined) of the
veto path. -/
def DocDB.insertStaticDoc (self : DocDB) (staticDoc : StaticDoc)
    (docFilter : Option (Doc → Bool)) (reset : Bool) : Option DocDB :=
  let docObject := staticDoc.value
  match docFilter with
  | some f =>
    let addDoc := f docObject || true
    if !addDoc then none
    else some (self.insertDoc docObject)
  | none => some (self.insertDoc docObject)

/-- `ASTNodeContainer`: sequential id assignment plus node storage
(`_nodes` is a JS object indexed by id; prepend-and-first-lookup
models its overwriting assignment). -/
structure ASTNodeContainer (A : Type) where
  docId : Nat
  nodes : List (Nat × A)

/-- `new ASTNodeContainer()`. -/
def ASTNodeContainer.empty (A : Type) : ASTNodeContainer A :=
  { docId := 0, nodes := [] }

/-- `ASTNodeContainer.add(node)`: stores the node at the current id and
returns that id, post-incrementing. -/
def ASTNodeContainer.add {A : Type} (c : ASTNodeContainer A) (node : A) :
    Nat × ASTNodeContainer A :=
  (c.docId, { docId := c.docId + 1, nodes := (c.docId, node) :: c.nodes })

/-- `ASTNodeContainer.clear()`: drops all nodes and resets the id. -/
def ASTNodeContainer.clear {A : Type} (c : ASTNodeContainer A) :
    ASTNodeContainer A :=
  { docId := 0, nodes := [] }

/-- `ASTNodeContainer.get(id)`. -/
def ASTNodeContainer.get {A : Type} (c : ASTNodeContainer A) (id : Nat) :
    Option A :=
  c.nodes.lookup id

/-- The `ParseError` a parser collaborator raises. -/
structure ParserError where
  line : Nat := 0
  column : Nat := 0
  message : String := ""
deriving DecidableEq

/-- The error taxonomy of the pipeline: parse errors, per-node doc
factory failures, and the store's own errors. -/
inductive TJSError where
  | parse (e : ParserError)
  | traversal (msg : String)
  | db (e : DBError)
deriving DecidableEq

/-- A failure descriptor queued on the logger collaborator by the
`tjsdoc:system:invalid:code:add` event. -/
structure InvalidCodeEntry where
  filePath : String := ""
  parserError : Option ParserError := none
  fatalError : Option String := none
deriving DecidableEq

/-- `s_TRAVERSE_FILE(filePath, docDB, eventbus, handleError)`: invoke
the parser collaborator; on parse failure branch on the error policy —
`log` queues `{filePath, parserError}` with the logger and returns
(nothing inserted), any other value reaches the `throw` case of the
source `switch` and propagates.  On success the walker feeds every
node to the doc factory's `push`; a per-node failure follows the same
branch but under `log` the walk continues.  The parser, walker and
factory are the external collaborators, passed as functions; the
factory's store insertions are its `push` result. -/
def s_TRAVERSE_FILE {Ast Node : Type}
    (parse : String → Except ParserError Ast)
    (nodesOf : Ast → List Node)
    (push : Node → DocDB → Except String DocDB)
    (handleError : String) (filePath : String) (docDB : DocDB)
    (invalidLog : List InvalidCodeEntry) :
    Except TJSError (DocDB × List InvalidCodeEntry) :=
  match parse filePath with
  | .error parserError =>
    if handleError = "log" then
      .ok (docDB,
           invalidLog ++ [{ filePath := filePath, parserError := some parserError }])
    else .error (.parse parserError)
  | .ok ast =>
    (nodesOf ast).foldlM
      (fun st node =>
        match push node st.1 with
        | .ok db => .ok (db, st.2)
        | .error fatalError =>
          if handleError = "log" then
            .ok (st.1,
                 st.2 ++ [{ filePath := filePath, fatalError := some fatalError }])
          else .error (.traversal fatalError))
      (docDB, invalidLog)

/-- The doc data the generation event deposits in the scratch store
for each of a list of file paths, concatenated; the first failure
propagates (`handleError = 'throw'`, the regeneration default and only
supported setting). -/
def genDocs (gen : String → Except TJSError (List Doc)) (paths : List String) :
    Except TJSError (List Doc) :=
  paths.foldlM (fun acc p => (gen p).map (fun ds => acc ++ ds)) []

/-- `RegenerateDocData._regenerateDocData(event, config)` under the
default `handleError = 'throw'`: build a fresh scratch store in mode
`regenerate` (its object tokens are freshly allocated, hence distinct
from the main store's), generate the changed file into it, then — when
`dependent` — each file of the main store's `findDependentFiles`;
replace via `removeAndInsertDB`; when `resolve`, run the resolver
collaborator on the returned paths and, when also `dependent`, rebuild
the result as `[filePath] ++ findDependentFiles(filePath)` against the
resolved store.  Returns the final main store next to the result or
the propagated error; an error leaves the store as it was at the
failure point. -/
def regenerateDocData (gen : String → Except TJSError (List Doc))
    (resolver : List String → DocDB → DocDB)
    (docDB : DocDB) (filePath : String) (dependent resolve : Bool) :
    DocDB × Except TJSError (List String) :=
  let regenDocDB : DocDB :=
    { selfRef := docDB.selfRef + docDB.taffyRef + 1,
      taffyRef := docDB.selfRef + docDB.taffyRef + 2,
      docs := [], docID := 0, mode := "regenerate", config := none }
  match gen filePath with
  | .error e => (docDB, .error e)
  | .ok ds1 =>
    match
      (if dependent then genDocs gen (docDB.findDependentFiles filePath [])
       else .ok []) with
    | .error e => (docDB, .error e)
    | .ok ds2 =>
      let scratch := { regenDocDB with docs := ds1 ++ ds2 }
      match docDB.removeAndInsertDB scratch with
      | .error e =>
        (docDB.removeByFilePaths (distinctVals (scratch.docs.map (·.filePath))),
         .error (.db e))
      | .ok (docDB', filePaths) =>
        if resolve then
          let docDB' := resolver filePaths docDB'
          if dependent then
            (docDB', .ok (docDB'.findDependentFiles filePath [filePath]))
          else (docDB', .ok filePaths)
        else (docDB', .ok filePaths)

example : StrMatch.test (.tildeSuffix "bar") "Foo~bar" = true := by decide
example : distinctVals ["A", "A", "B", "A"] = ["A", "B"] := by decide
example :
    (DocDB.construct [{ name := "b" }, { name := "a" }] "generate" 0 1).find [{}]
      = [{ name := "a" }, { name := "b" }] := by decide
example : splitLastSep "Foo#bar".data = some ("Foo".data, "bar".data) := by decide

/-- With an empty `docs` variable in scope the extends-chain loop of
`findByName` stage 4 never takes its `return` branch. -/
theorem chainLoop_nil (self : DocDB) (childName : String) :
    ∀ chains : List String, chainLoop self [] childName chains = [] := by
  intro chains
  induction chains with
  | nil => rfl
  | cons s rest ih => rw [chainLoop]; simpa using ih

/-- Whenever the first three stages of `findByName` return nothing, the
whole lookup returns nothing: stage 4's loop is guarded by the stale
(empty) stage-3 `docs` and cannot produce the inherited member. -/
theorem findByName_no_inherited (self : DocDB) (name : String)
    (kind qual : Option String)
    (h1 : self.find [{ longname := some (.exact name),
                       kind := kind.map StrMatch.exact, qualifier := qual }] = [])
    (h2 : self.find [{ name := some name, kind := kind.map StrMatch.exact,
                       qualifier := qual }] = [])
    (h3 : self.find [{ longname := some (.tildeSuffix name),
                       kind := kind.map StrMatch.exact, qualifier := qual }] = []) :
    self.findByName name kind qual = [] := by
  rw [DocDB.findByName.eq_def]
  simp only [h1, h2, h3, List.length_nil, ne_eq, not_true_eq_false, ite_false,
    not_false_eq_true, if_neg, chainLoop_nil]
  split
  · rfl
  · split
    · split
      · rfl
      · rfl
    · rfl

/-- The `Foo` class record of the inherited-lookup scenario: its
extends chain names `Base`. -/
def c1FooDoc : Doc :=
  { kind := "ModuleClass", name := "Foo", longname := "Foo",
    custom_extends_chains := some ["Base"] }

/-- The inherited member `Base#bar` of the scenario. -/
def c1BarDoc : Doc :=
  { kind := "ClassMethod", name := "bar", longname := "Base#bar",
    memberof := "Base" }

/-- The store of the inherited-lookup scenario. -/
def c1DB : DocDB := DocDB.construct [c1FooDoc, c1BarDoc] "generate" 0 1

/-- C1: the claim fails on the code.  In the store holding class `Foo`
with `_custom_extends_chains = ["Base"]` and the member `Base#bar`,
`findByName("Foo#bar")` reaches stage 4 (the first three stages all
miss) yet returns the empty sequence, although the member-of-ancestor
query of stage 4 would find exactly the inherited member: the chain
loop is guarded by the stale empty `docs` of stage 3, so its `return`
is dead code. -/
theorem findByName_inherited_stage_dead :
    c1DB.findByName "Foo#bar" none none = [] ∧
    c1DB.find [{ memberof := some "Base", name := some "bar" }] = [c1BarDoc] := by
  constructor
  · exact findByName_no_inherited c1DB "Foo#bar" none none
      (by decide) (by decide) (by decide)
  · decide

/-- The record of the self-merge scenario. -/
def c2Doc : Doc := { docId := 1, name := "x" }

/-- The store of the self-merge scenario; as for every JS `DocDB`, its
own object token differs from its internal TaffyDB handle's token. -/
def c2DB : DocDB := DocDB.construct [c2Doc] "generate" 0 1

/-- C2: the claim fails on the code.  `merge(this)` and `insert(this)`
on the very same store instance do not raise: the guard compares the
`DocDB` argument against `this._docDB` — the internal TaffyDB handle,
a different object — instead of against `this`, so it never fires;
`insert(this)` then duplicates every record. -/
theorem merge_self_not_raised :
    (c2DB.mergeDB c2DB).isOk = true ∧
    (c2DB.insertDB c2DB).isOk = true ∧
    (c2DB.insertDB c2DB).toOption.map (fun db => db.docs.length) = some 2 := by
  decide

/-- The record whose insertion the filter callback vetoes. -/
def c6Doc : Doc := { name := "vetoed" }

/-- The initially empty store of the veto scenario. -/
def c6DB : DocDB := DocDB.construct [] "generate" 0 1

/-- C6: the claim fails on the code.  With a filter callback returning
`false` for every record, `insertStaticDoc` still inserts: the source
computes `const addDoc = docFilter(docObject) || true`, which is
always `true`, so the `if (!addDoc) return` veto is dead code and the
store is not left unchanged. -/
theorem insertStaticDoc_filter_veto_dead :
    (c6DB.insertStaticDoc { value := c6Doc } (some (fun _ => false)) true).map
        (fun db => db.docs) = some [c6Doc] ∧
    c6DB.docs = [] := by
  constructor
  · rfl
  · rfl

/-- Inserting keeps the list a permutation of `d :: l`. -/
theorem insertByName_perm (d : Doc) (l : List Doc) :
    (insertByName d l).Perm (d :: l) := by
  induction l with
  | nil => simp [insertByName]
  | cons e es ih =>
    rw [insertByName]
    by_cases h : nameLe d e
    · simp [h]
    · simp only [h, if_false, Bool.false_eq_true]
      exact (ih.cons e).trans (List.Perm.swap d e es)

/-- The TaffyDB sort is a permutation of the record list. -/
theorem sortByName_perm (l : List Doc) : (sortByName l).Perm l := by
  induction l with
  | nil => simp [sortByName]
  | cons d ds ih =>
    rw [sortByName]
    exact (insertByName_perm d (sortByName ds)).trans (ih.cons d)

/-- Sorting preserves membership. -/
theorem mem_sortByName {x : Doc} {l : List Doc} :
    x ∈ sortByName l ↔ x ∈ l :=
  (sortByName_perm l).mem_iff

/-- Values already collected stay collected. -/
theorem mem_dedupPush_left {x : String} :
    ∀ {fps acc : List String}, x ∈ acc → x ∈ dedupPush acc fps := by
  intro fps
  induction fps with
  | nil => intro acc h; exact h
  | cons f fs ih =>
    intro acc h
    rw [dedupPush, List.foldl_cons]
    by_cases hc : f ∈ acc
    · simpa [dedupPush, hc] using ih h
    · have : x ∈ acc ++ [f] := List.mem_append_left _ h
      simpa [dedupPush, hc] using ih this

/-- Every pushed value ends up collected. -/
theorem mem_dedupPush_right {x : String} :
    ∀ {fps acc : List String}, x ∈ fps → x ∈ dedupPush acc fps := by
  intro fps
  induction fps with
  | nil => intro acc h; simp at h
  | cons f fs ih =>
    intro acc h
    rw [dedupPush, List.foldl_cons]
    rcases List.mem_cons.mp h with rfl | h'
    · by_cases hc : x ∈ acc
      · simpa [dedupPush, hc] using mem_dedupPush_left hc
      · have : x ∈ acc ++ [x] := List.mem_append_right _ (by simp)
        simpa [dedupPush, hc] using mem_dedupPush_left this
    · by_cases hc : f ∈ acc <;> simpa [dedupPush, hc] using ih h'

/-- Pushing values that are all collected already changes nothing. -/
theorem dedupPush_subset_eq :
    ∀ {fps acc : List String}, (∀ x ∈ fps, x ∈ acc) → dedupPush acc fps = acc := by
  intro fps
  induction fps with
  | nil => intro acc _; rfl
  | cons f fs ih =>
    intro acc h
    rw [dedupPush, List.foldl_cons]
    have hc : f ∈ acc := h f (List.mem_cons_self f fs)
    simpa [dedupPush, hc] using ih (fun x hx => h x (List.mem_cons_of_mem f hx))

/-- `distinct` of a non-empty all-`a` list is `[a]`. -/
theorem distinctVals_all_eq {a : String} {l : List String}
    (hne : l ≠ []) (hall : ∀ x ∈ l, x = a) : distinctVals l = [a] := by
  cases l with
  | nil => exact absurd rfl hne
  | cons x xs =>
    have hx : x = a := hall x (List.mem_cons_self x xs)
    subst hx
    rw [distinctVals, dedupPush, List.foldl_cons]
    have : (([] : List String).contains x) = false := rfl
    rw [this]
    simp only [Bool.false_eq_true, if_false, List.nil_append]
    exact dedupPush_subset_eq (fun y hy => by
      simp [hall y (List.mem_cons_of_mem x hy)])

/-- `filterDoc` touches only `content`, `ast` and `node`. -/
theorem filterDoc_fields (self : DocDB) (d : Doc) :
    (self.filterDoc d).kind = d.kind ∧
    (self.filterDoc d).name = d.name ∧
    (self.filterDoc d).longname = d.longname ∧
    (self.filterDoc d).memberof = d.memberof ∧
    (self.filterDoc d).filePath = d.filePath ∧
    (self.filterDoc d).custom_dependent_file_paths
      = d.custom_dependent_file_paths := by
  unfold DocDB.filterDoc
  cases hc : self.config with
  | none =>
    by_cases h1 : d.content = "" <;> by_cases h2 : d.ast = true <;>
      simp [h1, h2]
  | some cfg =>
    by_cases h1 : d.content = "" <;> by_cases h2 : d.ast = true <;>
      by_cases h3 : cfg.outputASTData = true <;> simp [h1, h2, h3]

/-- On a record whose `content`, `ast` and `node` are already blank,
`filterDoc` is the identity. -/
theorem filterDoc_stripped (self : DocDB) (d : Doc)
    (h1 : d.content = "") (h2 : d.ast = false) (h3 : d.node = false) :
    self.filterDoc d = d := by
  unfold DocDB.filterDoc
  simp only [h1, ne_eq, not_true_eq_false, if_false, h2, Bool.false_eq_true,
    ite_false]
  cases hc : self.config with
  | none => rfl
  | some cfg =>
    by_cases h4 : cfg.outputASTData = true
    · simp [h4]
    · simp only [h4, Bool.false_eq_true, not_false_eq_true, if_true]
      cases d
      simp_all

/-- A seeded record carrying an already-assigned id. -/
def c9Doc : Doc := { docId := 5, name := "seeded" }

/-- C9: the claim fails on the code for a seeded store.  A store
constructed from existing records (here one with id `5`) restarts its
counter at `0` — the constructor sets `this._docID = 0` with a `TODO`
admitting the highest seeded `__docId__` should be determined — so the
first id handed out is `0`, not strictly greater than the ids already
present, and a later hand-out collides with the seeded id. -/
theorem construct_seeded_id_restart :
    ((DocDB.construct [c9Doc] "generate" 0 1).getCurrentIDAndIncrement.1 = 0) ∧
    (c9Doc ∈ (DocDB.construct [c9Doc] "generate" 0 1).docs) ∧
    ¬ (c9Doc.docId <
        (DocDB.construct [c9Doc] "generate" 0 1).getCurrentIDAndIncrement.1) := by
  decide

/-- C10: `get` after `add` returns the added node at the returned id;
`add` hands out the current id and increments it, so successive adds
from a fresh container give `0, 1, 2, ...`; `clear` empties the
storage and resets the id, so the next `add` returns `0` again. -/
theorem astNodeContainer_add_get_clear (A : Type) (c : ASTNodeContainer A)
    (n m : A) :
    ((c.add n).2.get (c.add n).1 = some n) ∧
    ((c.add n).1 = c.docId) ∧
    ((c.add n).2.docId = c.docId + 1) ∧
    (((c.add n).2.add m).1 = (c.add n).1 + 1) ∧
    ((ASTNodeContainer.empty A).docId = 0) ∧
    (c.clear.nodes = ([] : List (Nat × A)) ∧ c.clear.docId = 0) ∧
    ((c.clear.add n).1 = 0) := by
  refine ⟨?_, rfl, rfl, rfl, rfl, ⟨rfl, rfl⟩, rfl⟩
  simp [ASTNodeContainer.add, ASTNodeContainer.get, List.lookup]

/-- C3: `removeAndInsertDB` on a main store, given a scratch store all
of whose records are final (stripped) records for file `A`, succeeds,
returns `[A]`, leaves the main store's `A`-records equal (as a record
set) to the scratch store's records, and leaves the records of every
other file path unchanged. -/
theorem removeAndInsertDB_replace (main scratch : DocDB) (A : String)
    (hpath : ∀ d ∈ scratch.docs, d.filePath = A)
    (hne : scratch.docs ≠ [])
    (hstr : ∀ d ∈ scratch.docs, d.content = "" ∧ d.ast = false ∧ d.node = false)
    (href : scratch.selfRef ≠ main.taffyRef) :
    ∃ main', main.removeAndInsertDB scratch = .ok (main', [A]) ∧
      (main'.docs.filter (fun d => d.filePath == A)).Perm scratch.docs ∧
      ∀ p, p ≠ A →
        main'.docs.filter (fun d => d.filePath == p)
          = main.docs.filter (fun d => d.filePath == p) := by
  have hdist : distinctVals (scratch.docs.map (·.filePath)) = [A] := by
    apply distinctVals_all_eq
    · simpa using hne
    · intro x hx
      obtain ⟨d, hd, rfl⟩ := List.mem_map.mp hx
      exact hpath d hd
  have hbeq : (scratch.selfRef == main.taffyRef) = false := by
    simpa using href
  have hmap : (sortByName scratch.docs).map
      ((main.removeByFilePaths [A]).filterDoc) = sortByName scratch.docs := by
    have hid : ∀ x ∈ sortByName scratch.docs,
        (main.removeByFilePaths [A]).filterDoc x = x := by
      intro x hx
      obtain ⟨h1, h2, h3⟩ := hstr x (mem_sortByName.mp hx)
      exact filterDoc_stripped _ x h1 h2 h3
    calc (sortByName scratch.docs).map ((main.removeByFilePaths [A]).filterDoc)
        = (sortByName scratch.docs).map id := List.map_congr_left hid
      _ = sortByName scratch.docs := List.map_id _
  have hok : main.removeAndInsertDB scratch =
      .ok ({ main.removeByFilePaths [A] with
             docs := (main.removeByFilePaths [A]).docs
               ++ sortByName scratch.docs }, [A]) := by
    unfold DocDB.removeAndInsertDB DocDB.insertDB
    rw [hdist]
    have href' : ¬ (scratch.selfRef = (main.removeByFilePaths [A]).taffyRef) :=
      href
    simp [href', hmap]
    rfl
  refine ⟨_, hok, ?_, ?_⟩
  · rw [List.filter_append]
    have hfirst : ((main.removeByFilePaths [A]).docs).filter
        (fun d => d.filePath == A) = [] := by
      rw [List.filter_eq_nil_iff]
      intro d hd
      have hp := List.of_mem_filter hd
      simp only [List.contains_cons, List.contains_nil, Bool.or_false,
        Bool.not_eq_true', beq_eq_false_iff_ne] at hp
      simpa using hp
    have hsecond : (sortByName scratch.docs).filter
        (fun d => d.filePath == A) = sortByName scratch.docs := by
      rw [List.filter_eq_self]
      intro d hd
      simpa using hpath d (mem_sortByName.mp hd)
    rw [hfirst, hsecond, List.nil_append]
    exact sortByName_perm scratch.docs
  · intro p hp
    rw [List.filter_append]
    have hsecond : (sortByName scratch.docs).filter
        (fun d => d.filePath == p) = [] := by
      rw [List.filter_eq_nil_iff]
      intro d hd
      have := hpath d (mem_sortByName.mp hd)
      simp [this]
      exact fun hc => hp hc.symm
    have hfirst : ((main.removeByFilePaths [A]).docs).filter
        (fun d => d.filePath == p) = main.docs.filter (fun d => d.filePath == p) := by
      show ((main.docs.filter _).filter _) = _
      rw [List.filter_filter]
      apply List.filter_congr
      intro x _
      by_cases hxp : x.filePath = p
      · simp [hxp]
        exact hp
      · simp [hxp]
    rw [hfirst, hsecond, List.append_nil]

/-- A main-store record for file `A` to be replaced. -/
def c3MainDocA : Doc := { name := "oldA", filePath := "A" }

/-- A main-store record for file `B` to be kept. -/
def c3MainDocB : Doc := { name := "keepB", filePath := "B" }

/-- The main store of the replace scenario. -/
def c3Main : DocDB := DocDB.construct [c3MainDocA, c3MainDocB] "generate" 0 1

/-- The fresh record for file `A` in the scratch store. -/
def c3ScratchDoc : Doc := { name := "newA", filePath := "A" }

/-- The scratch store of the replace scenario (a distinct JS object,
hence distinct reference tokens). -/
def c3Scratch : DocDB := DocDB.construct [c3ScratchDoc] "regenerate" 2 3

/-- Witness for C3 at a concrete main store holding files `A` and `B`
and a scratch store holding one record for `A`. -/
theorem removeAndInsertDB_replace_witness :
    (∀ d ∈ c3Scratch.docs, d.filePath = "A") ∧
    c3Scratch.docs ≠ [] ∧
    (∀ d ∈ c3Scratch.docs, d.content = "" ∧ d.ast = false ∧ d.node = false) ∧
    c3Scratch.selfRef ≠ c3Main.taffyRef ∧
    (∃ main', c3Main.removeAndInsertDB c3Scratch = .ok (main', ["A"]) ∧
      (main'.docs.filter (fun d => d.filePath == "A")).Perm c3Scratch.docs ∧
      ∀ p, p ≠ "A" →
        main'.docs.filter (fun d => d.filePath == p)
          = c3Main.docs.filter (fun d => d.filePath == p)) :=
  ⟨by decide, by decide, by decide, by decide,
   removeAndInsertDB_replace c3Main c3Scratch "A"
     (by decide) (by decide) (by decide) (by decide)⟩

/-- Removing records does not touch the store's TaffyDB handle. -/
theorem removeByFilePaths_taffyRef (m : DocDB) (f : List String) :
    (m.removeByFilePaths f).taffyRef = m.taffyRef := rfl

/-- Removing records does not touch the store's config. -/
theorem removeByFilePaths_config (m : DocDB) (f : List String) :
    (m.removeByFilePaths f).config = m.config := rfl

/-- C4: under the fail-fast (`throw`) policy a regeneration whose
generation phase throws — for the changed file or any dependent file —
returns that error to the caller with the main store exactly as it was
(the failure aborts before `removeAndInsertDB`); in particular a
primary-parse failure returns `(main, error)` unchanged. -/
theorem regenerate_error_leaves_main
    (gen : String → Except TJSError (List Doc))
    (resolver : List String → DocDB → DocDB)
    (main : DocDB) (filePath : String) (dependent resolve : Bool) :
    (∀ e, (regenerateDocData gen resolver main filePath dependent resolve).2
        = .error e →
      (regenerateDocData gen resolver main filePath dependent resolve).1 = main) ∧
    (∀ e, gen filePath = .error e →
      regenerateDocData gen resolver main filePath dependent resolve
        = (main, .error e)) := by
  constructor
  · intro e h
    unfold regenerateDocData at h ⊢
    cases hg : gen filePath with
    | error e1 => simp only [hg]
    | ok ds1 =>
      simp only [hg] at h ⊢
      cases hd : (if dependent then
          genDocs gen (main.findDependentFiles filePath []) else .ok []) with
      | error e2 => simp only [hd]
      | ok ds2 =>
        simp only [hd] at h ⊢
        have hexc : ∃ pr, main.removeAndInsertDB
            ({ selfRef := main.selfRef + main.taffyRef + 1,
               taffyRef := main.selfRef + main.taffyRef + 2,
               docs := ds1 ++ ds2, docID := 0, mode := "regenerate",
               config := none } : DocDB) = .ok pr := by
          unfold DocDB.removeAndInsertDB DocDB.insertDB
          have hne : ¬ ((main.selfRef + main.taffyRef + 1 : Nat)
              = main.taffyRef) := by omega
          simp [removeByFilePaths_taffyRef, hne, Except.map]
        obtain ⟨pr, hpr⟩ := hexc
        rw [hpr] at h ⊢
        obtain ⟨a, b⟩ := pr
        cases resolve <;> cases dependent <;> simp at h
  · intro e he
    unfold regenerateDocData
    rw [he]

/-- The parse failure of the C4 scenario. -/
def c4Err : TJSError := .parse { line := 3, column := 1, message := "bad token" }

/-- A generation collaborator whose parse always throws. -/
def c4Gen : String → Except TJSError (List Doc) := fun _ => .error c4Err

/-- A resolver collaborator that leaves the store unchanged. -/
def c4Resolver : List String → DocDB → DocDB := fun _ db => db

/-- The main store of the C4 scenario. -/
def c4Main : DocDB :=
  DocDB.construct [{ name := "keep", filePath := "A" }] "generate" 0 1

/-- Witness for C4: with a throwing generator the regeneration call
returns the error and the untouched main store. -/
theorem regenerate_error_leaves_main_witness :
    c4Gen "A" = .error c4Err ∧
    regenerateDocData c4Gen c4Resolver c4Main "A" true true
      = (c4Main, .error c4Err) :=
  ⟨rfl,
   (regenerate_error_leaves_main c4Gen c4Resolver c4Main "A" true true).2
     c4Err rfl⟩

/-- Collected dependent paths persist through the rest of the fold. -/
theorem mem_depFold_mono {B : String} :
    ∀ {docs : List Doc} {acc : List String}, B ∈ acc →
      B ∈ docs.foldl depStep acc := by
  intro docs
  induction docs with
  | nil => intro acc h; exact h
  | cons x xs ih =>
    intro acc h
    rw [List.foldl_cons]
    apply ih
    unfold depStep
    cases x.custom_dependent_file_paths with
    | none => exact h
    | some fps => exact mem_dedupPush_left h

/-- A dependent path carried by any record of the fold is collected. -/
theorem mem_depFold {B : String} {d : Doc} {l : List String}
    (hl : d.custom_dependent_file_paths = some l) (hB : B ∈ l) :
    ∀ {docs : List Doc} {acc : List String}, d ∈ docs →
      B ∈ docs.foldl depStep acc := by
  intro docs
  induction docs with
  | nil => intro acc h; simp at h
  | cons x xs ih =>
    intro acc hd
    rw [List.foldl_cons]
    rcases List.mem_cons.mp hd with rfl | h'
    · apply mem_depFold_mono
      unfold depStep
      rw [hl]
      exact mem_dedupPush_right hB
    · exact ih h'

/-- A `ModuleFile` record at path `A` whose dependent-path list holds
`B` makes `findDependentFiles(A)` report `B`. -/
theorem mem_findDependentFiles (m : DocDB) (A B : String) (d : Doc)
    (l : List String) (hd : d ∈ m.docs) (hkind : d.kind = "ModuleFile")
    (hfp : d.filePath = A) (hl : d.custom_dependent_file_paths = some l)
    (hB : B ∈ l) : B ∈ m.findDependentFiles A [] := by
  unfold DocDB.findDependentFiles
  simp only [List.nil_append]
  apply mem_depFold hl hB
  unfold DocDB.find
  rw [mem_sortByName, List.mem_filter]
  refine ⟨hd, ?_⟩
  simp [Query.matches, StrMatch.test, hkind, hfp]

/-- A path reported with an empty output array is reported with any
output array. -/
theorem mem_findDependentFiles_out (m : DocDB) (A B : String)
    (out : List String) (h : B ∈ m.findDependentFiles A []) :
    B ∈ m.findDependentFiles A out := by
  unfold DocDB.findDependentFiles at h ⊢
  simp only [List.nil_append] at h
  exact List.mem_append_right _ h

/-- After the replace step, a regenerated `ModuleFile` record for `A`
that names `B` as dependent is visible to `findDependentFiles(A)` on
the updated store. -/
theorem mem_findDependentFiles_insert (base : DocDB) (ds : List Doc)
    (A B : String) (d0 : Doc) (hd0 : d0 ∈ ds)
    (hkind : d0.kind = "ModuleFile") (hfp : d0.filePath = A)
    (l : List String) (hl : d0.custom_dependent_file_paths = some l)
    (hB : B ∈ l) :
    B ∈ ({ base with
           docs := base.docs ++ (sortByName ds).map base.filterDoc } :
          DocDB).findDependentFiles A [] := by
  obtain ⟨hk, -, -, -, hf, hdep⟩ := filterDoc_fields base d0
  exact mem_findDependentFiles _ A B (base.filterDoc d0) l
    (List.mem_append_right _ (List.mem_map_of_mem _ (mem_sortByName.mpr hd0)))
    (hk.trans hkind) (hf.trans hfp) (hdep.trans hl) hB

/-- The value a regeneration call computes once its generation phase
has produced the scratch record list (proof-side abbreviation of the
tail of `regenerateDocData`). -/
def regenResult (resolver : List String → DocDB → DocDB) (main : DocDB)
    (A : String) (dependent resolve : Bool) (scratchDocs : List Doc) :
    DocDB × Except TJSError (List String) :=
  let ps := distinctVals (scratchDocs.map (fun d => d.filePath))
  let R := main.removeByFilePaths ps
  let M1 : DocDB := { R with docs := R.docs ++ (sortByName scratchDocs).map R.filterDoc }
  if resolve then
    let M2 := resolver ps M1
    if dependent then (M2, .ok (M2.findDependentFiles A [A]))
    else (M2, .ok ps)
  else (M1, .ok ps)

/-- Reduction of `regenerateDocData` on a successful generation
phase. -/
theorem regenerateDocData_run
    (gen : String → Except TJSError (List Doc))
    (resolver : List String → DocDB → DocDB)
    (main : DocDB) (A : String) (dependent resolve : Bool)
    (ds1 ds2 : List Doc)
    (h1 : gen A = .ok ds1)
    (h2 : (if dependent then genDocs gen (main.findDependentFiles A [])
           else Except.ok []) = .ok ds2) :
    regenerateDocData gen resolver main A dependent resolve
      = regenResult resolver main A dependent resolve (ds1 ++ ds2) := by
  unfold regenerateDocData regenResult
  simp only [h1, h2]
  have hne : ¬ ((main.selfRef + main.taffyRef + 1 : Nat)
      = main.taffyRef) := by omega
  have hok : main.removeAndInsertDB
      ({ selfRef := main.selfRef + main.taffyRef + 1,
         taffyRef := main.selfRef + main.taffyRef + 2,
         docs := ds1 ++ ds2, docID := 0, mode := "regenerate",
         config := none } : DocDB)
      = .ok ({ main.removeByFilePaths
                 (distinctVals ((ds1 ++ ds2).map (fun d => d.filePath))) with
               docs := (main.removeByFilePaths
                   (distinctVals ((ds1 ++ ds2).map (fun d => d.filePath)))).docs
                 ++ (sortByName (ds1 ++ ds2)).map
                     (main.removeByFilePaths
                       (distinctVals
                         ((ds1 ++ ds2).map (fun d => d.filePath)))).filterDoc },
             distinctVals ((ds1 ++ ds2).map (fun d => d.filePath))) := by
    unfold DocDB.removeAndInsertDB DocDB.insertDB
    simp only [removeByFilePaths_taffyRef, beq_iff_eq]
    rw [if_neg hne]
    rfl
  rw [hok]

/-- C5: for a regeneration of file `A` whose prior generation
registered dependent file `B` in the main store (and whose fresh
generation of `A` again carries the `ModuleFile` record naming `B`,
with the resolver collaborator preserving `A`'s dependent set), the
returned path list contains both `A` and `B` when dependency
propagation is enabled, and is exactly `[A]` when it is disabled. -/
theorem regenerate_dependent_paths
    (gen : String → Except TJSError (List Doc))
    (resolver : List String → DocDB → DocDB)
    (main : DocDB) (A B : String) (resolve : Bool) (dsA dsB : List Doc)
    (hA : gen A = .ok dsA) (hAne : dsA ≠ [])
    (hApath : ∀ d ∈ dsA, d.filePath = A)
    (hB : gen B = .ok dsB) (hBne : dsB ≠ [])
    (hBpath : ∀ d ∈ dsB, d.filePath = B)
    (hdep : main.findDependentFiles A [] = [B])
    (hAfile : ∃ d0 ∈ dsA, d0.kind = "ModuleFile" ∧
       ∃ l, d0.custom_dependent_file_paths = some l ∧ B ∈ l)
    (hres : ∀ ps (m : DocDB), B ∈ m.findDependentFiles A [] →
       B ∈ (resolver ps m).findDependentFiles A []) :
    (∃ r, (regenerateDocData gen resolver main A true resolve).2 = .ok r ∧
       A ∈ r ∧ B ∈ r) ∧
    (regenerateDocData gen resolver main A false resolve).2 = .ok [A] := by
  constructor
  · have h2' : (if true then genDocs gen (main.findDependentFiles A [])
        else Except.ok []) = .ok dsB := by
      simp [genDocs, hdep, hB, Except.map]
    rw [regenerateDocData_run gen resolver main A true resolve dsA dsB hA h2']
    unfold regenResult
    obtain ⟨d0, hd0, hkind0, l, hl0, hBl⟩ := hAfile
    have hAps : A ∈ distinctVals ((dsA ++ dsB).map (fun d => d.filePath)) := by
      apply mem_dedupPush_right
      rw [List.mem_map]
      exact ⟨d0, List.mem_append_left _ hd0, hApath d0 hd0⟩
    have hBps : B ∈ distinctVals ((dsA ++ dsB).map (fun d => d.filePath)) := by
      apply mem_dedupPush_right
      rw [List.mem_map]
      obtain ⟨b0, hb0⟩ := List.exists_mem_of_ne_nil dsB hBne
      exact ⟨b0, List.mem_append_right _ hb0, hBpath b0 hb0⟩
    cases resolve with
    | false => exact ⟨_, rfl, hAps, hBps⟩
    | true =>
      refine ⟨_, rfl, ?_, ?_⟩
      · unfold DocDB.findDependentFiles
        simp
      · apply mem_findDependentFiles_out
        apply hres
        exact mem_findDependentFiles_insert _ (dsA ++ dsB) A B d0
          (List.mem_append_left _ hd0) hkind0 (hApath d0 hd0) l hl0 hBl
  · have h2' : (if false then genDocs gen (main.findDependentFiles A [])
        else Except.ok []) = .ok ([] : List Doc) := rfl
    rw [regenerateDocData_run gen resolver main A false resolve dsA [] hA h2']
    unfold regenResult
    have hps : distinctVals (dsA.map (fun d : Doc => d.filePath)) = [A] := by
      apply distinctVals_all_eq
      · simpa using hAne
      · intro x hx
        obtain ⟨d, hd, rfl⟩ := List.mem_map.mp hx
        exact hApath d hd
    cases resolve <;> simp [hps]

/-- The regenerated `ModuleFile` record of `A`, again naming `B` as a
dependent file. -/
def c5FileDocA : Doc :=
  { kind := "ModuleFile", name := "fileA", filePath := "A",
    custom_dependent_file_paths := some ["B"] }

/-- The regenerated `ModuleFile` record of the dependent file `B`. -/
def c5FileDocB : Doc :=
  { kind := "ModuleFile", name := "fileB", filePath := "B" }

/-- The main store before regeneration: `A`'s prior generation
registered `B` as dependent. -/
def c5Main : DocDB := DocDB.construct [c5FileDocA] "generate" 0 1

/-- The generation collaborator of the C5 scenario. -/
def c5Gen : String → Except TJSError (List Doc) :=
  fun p => if p = "A" then .ok [c5FileDocA] else .ok [c5FileDocB]

/-- A resolver collaborator that leaves the store unchanged. -/
def c5Resolver : List String → DocDB → DocDB := fun _ m => m

/-- Witness for C5 at the concrete two-file scenario. -/
theorem regenerate_dependent_paths_witness :
    (∃ r, (regenerateDocData c5Gen c5Resolver c5Main "A" true true).2 = .ok r ∧
       "A" ∈ r ∧ "B" ∈ r) ∧
    (regenerateDocData c5Gen c5Resolver c5Main "A" false true).2 = .ok ["A"] :=
  regenerate_dependent_paths c5Gen c5Resolver c5Main "A" "B" true
    [c5FileDocA] [c5FileDocB] rfl (by decide) (by decide) rfl (by decide)
    (by decide) (by decide)
    ⟨c5FileDocA, by decide, by decide, ["B"], rfl, by decide⟩
    (fun ps m h => h)

/-- C7: for every store and query shape, `getSourceCoverage` computes
`percent` as `floor(10000 * documented / expected) / 100` over the
coverable kinds (`0` when `expected = 0`), and the same formula is
applied to each per-file entry when `includeFiles` is set. -/
theorem getSourceCoverage_percent_formula (db : DocDB) (fp : Option StrMatch)
    (includeFiles : Bool) :
    ((db.getSourceCoverage fp includeFiles).percent =
      (if (db.getSourceCoverage fp includeFiles).expectedCount = 0 then (0 : ℚ)
       else ((10000 * (db.getSourceCoverage fp includeFiles).actualCount
               / (db.getSourceCoverage fp includeFiles).expectedCount : Nat) : ℚ)
             / 100)) ∧
    (∀ kv ∈ (db.getSourceCoverage fp includeFiles).files,
      kv.2.percent =
        (if kv.2.expectedCount = 0 then (0 : ℚ)
         else ((10000 * kv.2.actualCount / kv.2.expectedCount : Nat) : ℚ)
               / 100)) := by
  constructor
  · cases fp <;> cases includeFiles <;> rfl
  · cases fp with
    | none =>
      cases includeFiles with
      | false => intro kv hkv; simp [DocDB.getSourceCoverage] at hkv
      | true =>
        intro kv hkv
        obtain ⟨kv0, -, rfl⟩ := List.mem_map.mp hkv
        rfl
    | some fp0 =>
      cases includeFiles with
      | false => intro kv hkv; simp [DocDB.getSourceCoverage] at hkv
      | true =>
        intro kv hkv
        obtain ⟨kv0, -, rfl⟩ := List.mem_map.mp hkv
        rfl

/-- A coverable record of the C7 scenario. -/
def c7Doc (nm : String) (undoc : Bool) (line : Nat) : Doc :=
  { kind := "ClassMethod", name := nm, filePath := "F",
    undocument := undoc, lineNumber := line }

/-- The C7 store: 10 coverable records in one file, 3 undocumented. -/
def c7DB : DocDB := DocDB.construct
  [c7Doc "a" true 1, c7Doc "b" true 2, c7Doc "c" true 3,
   c7Doc "d" false 4, c7Doc "e" false 5, c7Doc "f" false 6,
   c7Doc "g" false 7, c7Doc "h" false 8, c7Doc "i" false 9,
   c7Doc "j" false 10] "generate" 0 1

/-- The per-file coverage entry the C7 store produces for `F`. -/
def c7Entry : FileCoverage :=
  { expectedCount := 10, actualCount := 7, undocumentedLines := [1, 2, 3],
    percent := s_CALC_COVERAGE_percent 7 10 }

/-- Witness for C7: 7 documented of 10 expected gives `70` both overall
and for the file entry, and an empty store gives `0`. -/
theorem getSourceCoverage_percent_formula_witness :
    ("F", c7Entry) ∈ (c7DB.getSourceCoverage none true).files ∧
    c7Entry.percent = 70 ∧
    (c7DB.getSourceCoverage none true).percent = 70 ∧
    ((DocDB.construct [] "generate" 0 1).getSourceCoverage none false).percent
      = 0 := by
  have hfiles : (c7DB.getSourceCoverage none true).files = [("F", c7Entry)] :=
    rfl
  have hmem : ("F", c7Entry) ∈ (c7DB.getSourceCoverage none true).files := by
    rw [hfiles]; exact List.mem_singleton.mpr rfl
  refine ⟨hmem, ?_, ?_, ?_⟩
  · have h2 := (getSourceCoverage_percent_formula c7DB none true).2
      ("F", c7Entry) hmem
    rw [h2]
    norm_num [c7Entry]
  · rw [(getSourceCoverage_percent_formula c7DB none true).1]
    have he : (c7DB.getSourceCoverage none true).expectedCount = 10 := rfl
    have ha : (c7DB.getSourceCoverage none true).actualCount = 7 := rfl
    rw [he, ha]
    norm_num
  · rw [(getSourceCoverage_percent_formula
      (DocDB.construct [] "generate" 0 1) none false).1]
    have he : ((DocDB.construct [] "generate" 0 1).getSourceCoverage
        none false).expectedCount = 0 := rfl
    rw [he]
    norm_num

/-- C8: on a parse failure, the `log` policy queues the structured
`{filePath, parserError}` descriptor with the logger collaborator and
returns with the store untouched (nothing inserted), while the `throw`
policy propagates the parse error to the caller. -/
theorem traverseFile_parse_error_policy {Ast Node : Type}
    (parse : String → Except ParserError Ast)
    (nodesOf : Ast → List Node)
    (push : Node → DocDB → Except String DocDB)
    (filePath : String) (docDB : DocDB) (invalidLog : List InvalidCodeEntry)
    (e : ParserError) (hp : parse filePath = .error e) :
    s_TRAVERSE_FILE parse nodesOf push "log" filePath docDB invalidLog
      = .ok (docDB,
             invalidLog ++ [{ filePath := filePath, parserError := some e }]) ∧
    s_TRAVERSE_FILE parse nodesOf push "throw" filePath docDB invalidLog
      = .error (.parse e) := by
  constructor <;> simp [s_TRAVERSE_FILE, hp]

/-- The parse error of the C8 scenario. -/
def c8Err : ParserError := { line := 3, column := 7, message := "bad token" }

/-- A parser collaborator that always fails. -/
def c8Parse : String → Except ParserError Unit := fun _ => .error c8Err

/-- A trivial walker for the C8 scenario. -/
def c8NodesOf : Unit → List Unit := fun _ => []

/-- A trivial doc-factory push for the C8 scenario. -/
def c8Push : Unit → DocDB → Except String DocDB := fun _ db => .ok db

/-- The target store of the C8 scenario. -/
def c8DB : DocDB := DocDB.construct [] "generate" 0 1

/-- Witness for C8 at a concrete failing parse. -/
theorem traverseFile_parse_error_policy_witness :
    c8Parse "bad.js" = .error c8Err ∧
    s_TRAVERSE_FILE c8Parse c8NodesOf c8Push "log" "bad.js" c8DB []
      = .ok (c8DB, [{ filePath := "bad.js", parserError := some c8Err }]) ∧
    s_TRAVERSE_FILE c8Parse c8NodesOf c8Push "throw" "bad.js" c8DB []
      = .error (.parse c8Err) := by
  have h := traverseFile_parse_error_policy c8Parse c8NodesOf c8Push
    "bad.js" c8DB [] c8Err rfl
  exact ⟨rfl, h.1, h.2⟩
